import Mathlib

/-!
Shallow embedding of the heliostat radio-message layer (src/messages.py).

Modelling conventions:
* Python byte strings and byte lists are `List Nat`; operations that require
  genuine bytes (such as the `bytes(...)` constructor or `int.from_bytes`)
  validate that every element is below 256, as CPython does.
* Python exceptions are the error side of `Except PyErr`.
* Timestamps are modelled at millisecond resolution: a `datetime` is the
  (possibly negative) number of milliseconds since the epoch.  All codec
  arithmetic in the source operates at exactly this resolution.
* 32-bit floats are modelled by their IEEE-754 binary32 bit pattern, a
  natural number below 2^32: `struct.pack("f", x)` emits the four
  little-endian bytes of that pattern and `struct.unpack("f", b)` recovers it.
-/

namespace HelioMessages

/-- The Python exceptions that the functions of messages.py can raise. -/
inductive PyErr where
  | valueError
  | structError
  | indexError
  | overflowError
  | attributeError
deriving DecidableEq

/-- True exactly when an operation raised an exception. -/
def isFailure {α : Type} : Except PyErr α → Bool
  | .error _ => true
  | .ok _ => false

instance {ε α : Type} [DecidableEq ε] [DecidableEq α] : DecidableEq (Except ε α) :=
  fun x y =>
    match x, y with
    | .error a, .error b =>
        if h : a = b then .isTrue (by rw [h]) else
          .isFalse (by intro hc; cases hc; exact h rfl)
    | .ok a, .ok b =>
        if h : a = b then .isTrue (by rw [h]) else
          .isFalse (by intro hc; cases hc; exact h rfl)
    | .error _, .ok _ => .isFalse (by intro hc; exact Except.noConfusion hc)
    | .ok _, .error _ => .isFalse (by intro hc; exact Except.noConfusion hc)

/-- The `n` little-endian bytes of `v` (as `int.to_bytes`/`struct.pack` emit). -/
def leBytes : Nat → Nat → List Nat
  | 0, _ => []
  | n + 1, v => v % 256 :: leBytes n (v / 256)

/-- The value carried by a little-endian byte list (as `int.from_bytes` reads). -/
def leDecode : List Nat → Nat
  | [] => 0
  | b :: rest => b + 256 * leDecode rest

/-- Python `bytes(list)`: succeeds only when every element is in 0..255. -/
def pyBytes (l : List Nat) : Except PyErr (List Nat) :=
  if l.all (fun b => b < 256) then .ok l else .error .valueError

/-- Python `v.to_bytes(n, byteorder="little")`: `OverflowError` when `v` does
not fit in `n` bytes. -/
def pyIntToBytes (n v : Nat) : Except PyErr (List Nat) :=
  if v < 256 ^ n then .ok (leBytes n v) else .error .overflowError

/-- Python `int.from_bytes(l, byteorder="little")` applied to a list of ints:
each element must be in 0..255, any length is accepted. -/
def pyIntFromBytesLE (l : List Nat) : Except PyErr Nat :=
  if l.all (fun b => b < 256) then .ok (leDecode l) else .error .valueError

/-- Python `struct.unpack("f", bytes(l))[0]`: needs exactly four byte-valued
elements and yields the binary32 bit pattern they carry. -/
def unpack_f (l : List Nat) : Except PyErr Nat :=
  (pyBytes l).bind fun b =>
    if b.length = 4 then .ok (leDecode b) else .error .structError

/-- Python slice `l[start : start + len]` (clamped, never failing). -/
def pySlice (l : List Nat) (start len : Nat) : List Nat :=
  (l.drop start).take len

/-- `int_to_bytes` of messages.py: big-endian split of a 16-bit id, each byte
masked with 0xFF (written here as `% 256`). -/
def int_to_bytes (integer : Nat) : Nat × Nat :=
  ((integer >>> 8) % 256, integer % 256)

/-- The `Action` enumeration of messages.py. -/
inductive Action where
  | TRACK
  | DEFOCUS
  | STOW
  | PAUSE
  | MOTOR_RESET
  | RESET_CALIBRATION
  | SOLVE_CALIBRATION
  | RESTART
deriving DecidableEq

/-- The wire value `int(action)` of each `Action` member. -/
def Action.toNat : Action → Nat
  | .TRACK => 0
  | .DEFOCUS => 1
  | .STOW => 2
  | .PAUSE => 3
  | .MOTOR_RESET => 4
  | .RESET_CALIBRATION => 5
  | .SOLVE_CALIBRATION => 6
  | .RESTART => 7

/-- Python `Action(n)`: `ValueError` when `n` is not a member value. -/
def Action.fromNat : Nat → Except PyErr Action
  | 0 => .ok .TRACK
  | 1 => .ok .DEFOCUS
  | 2 => .ok .STOW
  | 3 => .ok .PAUSE
  | 4 => .ok .MOTOR_RESET
  | 5 => .ok .RESET_CALIBRATION
  | 6 => .ok .SOLVE_CALIBRATION
  | 7 => .ok .RESTART
  | _ => .error .valueError

/-- `HelioAngle`: elevation and tilt, each a binary32 bit pattern. -/
structure HelioAngle where
  elev : Nat
  tilt : Nat
deriving DecidableEq

/-- `HelioAngle.to_bytes`: `struct.pack("f", elev) ++ struct.pack("f", tilt)`. -/
def HelioAngle.to_bytes (a : HelioAngle) : List Nat :=
  leBytes 4 a.elev ++ leBytes 4 a.tilt

/-- `HelioAngle.from_bytes`: `struct.unpack("ff", bytes(bytes_list[:8]))`,
which demands exactly eight byte-valued elements after the slice. -/
def HelioAngle.from_bytes (bytes_list : List Nat) : Except PyErr HelioAngle :=
  (pyBytes (bytes_list.take 8)).bind fun b =>
    if b.length = 8 then .ok ⟨leDecode (b.take 4), leDecode (b.drop 4)⟩
    else .error .structError

/-- `HeartBeat`: a millisecond-precision timestamp, kept as milliseconds since
the epoch (the integer the source computes as `int(timestamp.timestamp() * 1000)`). -/
structure HeartBeat where
  timestamp_ms : Nat
deriving DecidableEq

/-- `HeartBeat.to_bytes`: `milliseconds.to_bytes(8, byteorder="little")`. -/
def HeartBeat.to_bytes (m : HeartBeat) : Except PyErr (List Nat) :=
  pyIntToBytes 8 m.timestamp_ms

/-- `HeartBeat.from_bytes`: `struct.unpack("<Q", bytes(data))`, which demands
exactly eight byte-valued elements. -/
def HeartBeat.from_bytes (data : List Nat) : Except PyErr HeartBeat :=
  (pyBytes data).bind fun b =>
    if b.length = 8 then .ok ⟨leDecode b⟩ else .error .structError

/-- `HelioCmd`: a heliostat id and an action. -/
structure HelioCmd where
  helio_id : Nat
  action : Action
deriving DecidableEq

/-- `HelioCmd.to_bytes`: big-endian id split followed by the action byte. -/
def HelioCmd.to_bytes (m : HelioCmd) : List Nat :=
  let p := int_to_bytes m.helio_id
  [p.1, p.2, m.action.toNat]

/-- `HelioCmd.from_bytes`: `(data[0] << 8) + data[1]` and `Action(data[2])`;
indexing a list shorter than three raises `IndexError`. -/
def HelioCmd.from_bytes (data : List Nat) : Except PyErr HelioCmd :=
  match data with
  | d0 :: d1 :: d2 :: _ =>
      (Action.fromNat d2).bind fun a => .ok ⟨(d0 <<< 8) + d1, a⟩
  | _ => .error .indexError

/-- `HelioTargetPoseCmd`: id plus an x, y, z pose, floats as bit patterns. -/
structure HelioTargetPoseCmd where
  helio_id : Nat
  x : Nat
  y : Nat
  z : Nat
deriving DecidableEq

/-- `HelioTargetPoseCmd.to_bytes`: 14 bytes, id little-endian then x, y, z. -/
def HelioTargetPoseCmd.to_bytes (m : HelioTargetPoseCmd) : Except PyErr (List Nat) :=
  (pyIntToBytes 2 m.helio_id).bind fun idb =>
    .ok (idb ++ leBytes 4 m.x ++ leBytes 4 m.y ++ leBytes 4 m.z)

/-- `HelioTargetPoseCmd.from_bytes`: reads the id from bytes 0..2 and the three
floats from the following 4-byte slices. -/
def HelioTargetPoseCmd.from_bytes (bytes_list : List Nat) :
    Except PyErr HelioTargetPoseCmd :=
  (pyIntFromBytesLE (pySlice bytes_list 0 2)).bind fun helio_id =>
    (unpack_f (pySlice bytes_list 2 4)).bind fun x =>
      (unpack_f (pySlice bytes_list 6 4)).bind fun y =>
        (unpack_f (pySlice bytes_list 10 4)).bind fun z =>
          .ok ⟨helio_id, x, y, z⟩

/-- Milliseconds in one day. -/
def msPerDay : Nat := 86400000

/-- `get_milliseconds_since_midnight`: the time-of-day part of a timestamp.
Python's nonnegative `%` on the millisecond count models the subtraction of
the same calendar day's midnight. -/
def get_milliseconds_since_midnight (t : Int) : Nat :=
  (t % (msPerDay : Int)).toNat

/-- `time_to_bytes`: the big-endian 4-byte split of milliseconds since
midnight, each byte masked with 0xFF (written here as `% 256`). -/
def time_to_bytes (t : Int) : List Nat :=
  let m := get_milliseconds_since_midnight t
  [(m >>> 24) % 256, (m >>> 16) % 256, (m >>> 8) % 256, m % 256]

/-- `get_time_point_from_milliseconds_since_midnight`: combines a
milliseconds-since-midnight count with the current date (`now`, the decoder's
clock in milliseconds since the epoch) and steps one day back when the result
would lie in the future. -/
def get_time_point_from_milliseconds_since_midnight (now : Nat) (m : Nat) : Int :=
  let midnight : Nat := now / msPerDay * msPerDay
  let time_point : Int := (midnight : Int) + (m : Int)
  if (now : Int) < time_point then time_point - (msPerDay : Int) else time_point

/-- `bytes_to_time`: recombines four big-endian bytes (indexing raises
`IndexError` on a shorter list) and resolves them against the decoder clock. -/
def bytes_to_time (now : Nat) (bytes_list : List Nat) : Except PyErr Int :=
  match bytes_list with
  | b0 :: b1 :: b2 :: b3 :: _ =>
      .ok (get_time_point_from_milliseconds_since_midnight now
        ((b0 <<< 24) ||| (b1 <<< 16) ||| (b2 <<< 8) ||| b3))
  | _ => .error .indexError

/-- `CalibObservation`: a full timestamp, two spot errors (bit patterns), an
id and an elevation/tilt pair. -/
structure CalibObservation where
  timestamp_ms : Int
  spot_error_u : Nat
  spot_error_v : Nat
  helio_id : Nat
  elev_tilt_rads : HelioAngle
deriving DecidableEq

/-- `CalibObservation.to_bytes`: time-of-day, u, v, id (little-endian,
`OverflowError` when it exceeds 16 bits), then the angle pair. -/
def CalibObservation.to_bytes (c : CalibObservation) : Except PyErr (List Nat) :=
  (pyIntToBytes 2 c.helio_id).bind fun idb =>
    .ok (time_to_bytes c.timestamp_ms ++ leBytes 4 c.spot_error_u ++
      leBytes 4 c.spot_error_v ++ idb ++ c.elev_tilt_rads.to_bytes)

/-- `CalibObservation.from_bytes`: fixed-offset slices for each field; the
timestamp is resolved against the decoder clock `now`. -/
def CalibObservation.from_bytes (now : Nat) (bytes_list : List Nat) :
    Except PyErr CalibObservation :=
  (bytes_to_time now (pySlice bytes_list 0 4)).bind fun timestamp =>
    (unpack_f (pySlice bytes_list 4 4)).bind fun u =>
      (unpack_f (pySlice bytes_list 8 4)).bind fun v =>
        (pyIntFromBytesLE (pySlice bytes_list 12 2)).bind fun helio_id =>
          (HelioAngle.from_bytes (pySlice bytes_list 14 8)).bind fun elev_tilt =>
            .ok ⟨timestamp, u, v, helio_id, elev_tilt⟩

/-- The closed set of binary radio messages (the `RadioMsg` subclasses that
own a byte layout). -/
inductive Msg where
  | helioCmd : HelioCmd → Msg
  | calibObservation : CalibObservation → Msg
  | helioTargetPoseCmd : HelioTargetPoseCmd → Msg
  | heartBeat : HeartBeat → Msg
deriving DecidableEq

/-- The opcode of `OPCODE_MAPPINGS` for each binary message (opcode 3 belongs
to `PodConfigUpdateCmd`, which has no byte layout and no constructor here). -/
def OPCODE_OF : Msg → Nat
  | .helioCmd _ => 0
  | .calibObservation _ => 4
  | .helioTargetPoseCmd _ => 5
  | .heartBeat _ => 6

/-- Dispatch of `message.to_bytes()` over the closed message set. -/
def Msg.to_bytes : Msg → Except PyErr (List Nat)
  | .helioCmd m => .ok m.to_bytes
  | .calibObservation m => m.to_bytes
  | .helioTargetPoseCmd m => m.to_bytes
  | .heartBeat m => m.to_bytes

/-- The frame `serialize` builds once the payload is in hand:
`[opcode, length, ...payload]`, with no check on the payload length. -/
def serializeCore (opcode : Nat) (msg_data : List Nat) : List Nat :=
  opcode :: msg_data.length :: msg_data

/-- `serialize` of messages.py: opcode lookup, `to_bytes`, then the frame. -/
def serialize (data : Msg) : Except PyErr (List Nat) :=
  (data.to_bytes).bind fun msg_data =>
    .ok (serializeCore (OPCODE_OF data) msg_data)

/-- `deserialize` of messages.py: `struct.unpack("BB", bytes(data[:2]))`, the
clamped payload slice `data[2 : 2 + length]`, the empty-payload guard, and the
opcode dispatch over `OPCODE_MAPPINGS` (opcode 3 reaches `PodConfigUpdateCmd`,
which has no `from_bytes`, hence `AttributeError`). -/
def deserialize (now : Nat) (data : List Nat) : Except PyErr Msg :=
  if (data.take 2).all (fun b => b < 256) then
    match data with
    | opcode :: length :: rest =>
        let command_bytes := rest.take length
        if command_bytes.isEmpty then .error .valueError
        else if opcode = 0 then
          (HelioCmd.from_bytes command_bytes).map Msg.helioCmd
        else if opcode = 3 then .error .attributeError
        else if opcode = 4 then
          (CalibObservation.from_bytes now command_bytes).map Msg.calibObservation
        else if opcode = 5 then
          (HelioTargetPoseCmd.from_bytes command_bytes).map Msg.helioTargetPoseCmd
        else if opcode = 6 then
          (HeartBeat.from_bytes command_bytes).map Msg.heartBeat
        else .error .valueError
    | _ => .error .structError
  else .error .valueError

/-- `break_into_packets`: 16-byte packets `[address, seq, total, data...]`
with 13 data bytes each, the final packet zero-padded; the address byte is
`FC_RADIO_ADDRESS = 255` and sequence numbers count from one. -/
def break_into_packets (message : List Nat) : List (List Nat) :=
  let data_size := 13
  let total_packages := (message.length + data_size - 1) / data_size
  (List.range total_packages).map fun i =>
    let packet := 255 :: (i + 1) :: total_packages :: pySlice message (i * data_size) data_size
    packet ++ List.replicate (16 - packet.length) 0

/-! ### Helper lemmas about the byte primitives -/

theorem leBytes_length (n v : Nat) : (leBytes n v).length = n := by
  induction n generalizing v with
  | zero => rfl
  | succ n ih => simp [leBytes, ih]

theorem leBytes_all_lt (n v : Nat) :
    (leBytes n v).all (fun b => b < 256) = true := by
  induction n generalizing v with
  | zero => rfl
  | succ n ih =>
    simp only [leBytes, List.all_cons, ih, Bool.and_true, decide_eq_true_eq]
    exact Nat.mod_lt _ (by norm_num)

theorem leDecode_leBytes (n v : Nat) (h : v < 256 ^ n) :
    leDecode (leBytes n v) = v := by
  induction n generalizing v with
  | zero =>
    interval_cases v
    rfl
  | succ n ih =>
    have hdiv : v / 256 < 256 ^ n := by
      rw [Nat.div_lt_iff_lt_mul (by norm_num)]
      calc v < 256 ^ (n + 1) := h
        _ = 256 ^ n * 256 := by ring
    simp only [leBytes, leDecode, ih _ hdiv]
    omega

theorem pyBytes_leBytes (n v : Nat) : pyBytes (leBytes n v) = .ok (leBytes n v) := by
  simp [pyBytes, leBytes_all_lt]

theorem unpack_f_leBytes (v : Nat) (h : v < 4294967296) :
    unpack_f (leBytes 4 v) = .ok v := by
  simp only [unpack_f, pyBytes_leBytes, Except.bind, leBytes_length, if_pos]
  rw [leDecode_leBytes 4 v (by norm_num; omega)]

theorem pyIntFromBytesLE_leBytes (n v : Nat) (h : v < 256 ^ n) :
    pyIntFromBytesLE (leBytes n v) = .ok v := by
  simp [pyIntFromBytesLE, leBytes_all_lt, leDecode_leBytes n v h]

theorem isFailure_bind_left {α β : Type} {x : Except PyErr α}
    (f : α → Except PyErr β) (h : isFailure x = true) :
    isFailure (x.bind f) = true := by
  cases x with
  | error e => rfl
  | ok a => simp [isFailure] at h

theorem isFailure_bind_right {α β : Type} (x : Except PyErr α)
    {f : α → Except PyErr β} (h : ∀ a, isFailure (f a) = true) :
    isFailure (x.bind f) = true := by
  cases x with
  | error e => rfl
  | ok a => exact h a

theorem unpack_f_isFailure {l : List Nat} (h : l.length ≠ 4) :
    isFailure (unpack_f l) = true := by
  rw [unpack_f, pyBytes]
  split
  · simp [Except.bind, if_neg h, isFailure]
  · rfl

theorem lor_eq_add_of_dvd {n a : Nat} (b : Nat) (ha : 2 ^ n ∣ a) (hb : b < 2 ^ n) :
    a ||| b = a + b := by
  obtain ⟨c, rfl⟩ := ha
  exact (Nat.mul_add_lt_is_or hb c).symm

theorem lor_eq_add_lit24 (a b : Nat) (ha : 16777216 ∣ a) (hb : b < 16777216) :
    a ||| b = a + b := by
  have hp : (16777216 : Nat) = 2 ^ 24 := by norm_num
  exact lor_eq_add_of_dvd b (hp ▸ ha) (hp ▸ hb)

theorem lor_eq_add_lit16 (a b : Nat) (ha : 65536 ∣ a) (hb : b < 65536) :
    a ||| b = a + b := by
  have hp : (65536 : Nat) = 2 ^ 16 := by norm_num
  exact lor_eq_add_of_dvd b (hp ▸ ha) (hp ▸ hb)

theorem lor_eq_add_lit8 (a b : Nat) (ha : 256 ∣ a) (hb : b < 256) :
    a ||| b = a + b := by
  have hp : (256 : Nat) = 2 ^ 8 := by norm_num
  exact lor_eq_add_of_dvd b (hp ▸ ha) (hp ▸ hb)

theorem be4_lor (b0 b1 b2 b3 : Nat) (h1 : b1 < 256) (h2 : b2 < 256) (h3 : b3 < 256) :
    (b0 <<< 24) ||| (b1 <<< 16) ||| (b2 <<< 8) ||| b3 =
      b0 * 16777216 + b1 * 65536 + b2 * 256 + b3 := by
  have e0 : b0 <<< 24 = b0 * 16777216 := by rw [Nat.shiftLeft_eq]
  have e1 : b1 <<< 16 = b1 * 65536 := by rw [Nat.shiftLeft_eq]
  have e2 : b2 <<< 8 = b2 * 256 := by rw [Nat.shiftLeft_eq]
  have s1 : b0 * 16777216 ||| b1 * 65536 = b0 * 16777216 + b1 * 65536 :=
    lor_eq_add_lit24 _ _ (dvd_mul_left 16777216 b0) (by omega)
  have s2 : b0 * 16777216 + b1 * 65536 ||| b2 * 256 =
      b0 * 16777216 + b1 * 65536 + b2 * 256 :=
    lor_eq_add_lit16 _ _
      (dvd_add ⟨b0 * 256, by ring⟩ (dvd_mul_left 65536 b1)) (by omega)
  have s3 : b0 * 16777216 + b1 * 65536 + b2 * 256 ||| b3 =
      b0 * 16777216 + b1 * 65536 + b2 * 256 + b3 :=
    lor_eq_add_lit8 _ _
      (dvd_add (dvd_add ⟨b0 * 65536, by ring⟩ ⟨b1 * 256, by ring⟩)
        (dvd_mul_left 256 b2)) h3
  rw [e0, e1, e2, s1, s2, s3]

theorem be4_roundtrip (m : Nat) (hm : m < 4294967296) :
    (((m >>> 24) % 256) <<< 24) ||| (((m >>> 16) % 256) <<< 16) |||
      (((m >>> 8) % 256) <<< 8) ||| (m % 256) = m := by
  rw [be4_lor _ _ _ _ (Nat.mod_lt _ (by norm_num)) (Nat.mod_lt _ (by norm_num))
    (Nat.mod_lt _ (by norm_num))]
  rw [Nat.shiftRight_eq_div_pow, Nat.shiftRight_eq_div_pow, Nat.shiftRight_eq_div_pow]
  have p24 : (2 : Nat) ^ 24 = 16777216 := by norm_num
  have p16 : (2 : Nat) ^ 16 = 65536 := by norm_num
  have p8 : (2 : Nat) ^ 8 = 256 := by norm_num
  rw [p24, p16, p8]
  omega

theorem gms_natCast (t : Nat) :
    get_milliseconds_since_midnight (t : Int) = t % msPerDay := by
  unfold get_milliseconds_since_midnight msPerDay
  omega

theorem gtp_recovers (t now : Nat)
    (h : t / msPerDay = now / msPerDay ∧ t ≤ now ∨
      now / msPerDay = t / msPerDay + 1 ∧ now < t + msPerDay) :
    get_time_point_from_milliseconds_since_midnight now (t % msPerDay) = (t : Int) := by
  unfold msPerDay at h
  simp only [get_time_point_from_milliseconds_since_midnight, msPerDay]
  rcases h with ⟨h1, h2⟩ | ⟨h1, h2⟩ <;> split <;> omega

theorem time_to_bytes_length (t : Int) : (time_to_bytes t).length = 4 := rfl

theorem bytes_to_time_time_to_bytes (t now : Nat)
    (h : t / msPerDay = now / msPerDay ∧ t ≤ now ∨
      now / msPerDay = t / msPerDay + 1 ∧ now < t + msPerDay) :
    bytes_to_time now (time_to_bytes (t : Int)) = .ok (t : Int) := by
  have hm : t % msPerDay < 4294967296 := by
    unfold msPerDay
    omega
  simp only [time_to_bytes, gms_natCast, bytes_to_time]
  rw [be4_roundtrip _ hm, gtp_recovers t now h]

theorem HeartBeat_roundtrip (ms : Nat) (h : ms < 18446744073709551616) :
    (HeartBeat.to_bytes ⟨ms⟩).bind HeartBeat.from_bytes = .ok ⟨ms⟩ := by
  have e : (256 : Nat) ^ 8 = 18446744073709551616 := by norm_num
  have h' : ms < 256 ^ 8 := e.symm ▸ h
  simp only [HeartBeat.to_bytes, pyIntToBytes, if_pos h', Except.bind]
  simp only [HeartBeat.from_bytes, pyBytes_leBytes, Except.bind, leBytes_length,
    if_pos, leDecode_leBytes 8 ms h']

theorem HelioCmd_from_to (id : Nat) (a : Action) :
    HelioCmd.from_bytes (HelioCmd.to_bytes ⟨id, a⟩) = .ok ⟨id % 65536, a⟩ := by
  have ha : Action.fromNat a.toNat = .ok a := by cases a <;> rfl
  simp only [HelioCmd.to_bytes, int_to_bytes, HelioCmd.from_bytes, ha, Except.bind]
  have harith : ((id >>> 8) % 256) <<< 8 + id % 256 = id % 65536 := by
    rw [Nat.shiftLeft_eq, Nat.shiftRight_eq_div_pow]
    have p8 : (2 : Nat) ^ 8 = 256 := by norm_num
    rw [p8]
    omega
  rw [harith]

theorem HelioTargetPoseCmd_roundtrip (id x y z : Nat) (hid : id < 65536)
    (hx : x < 4294967296) (hy : y < 4294967296) (hz : z < 4294967296) :
    (HelioTargetPoseCmd.to_bytes ⟨id, x, y, z⟩).bind HelioTargetPoseCmd.from_bytes =
      .ok ⟨id, x, y, z⟩ := by
  have e2 : (256 : Nat) ^ 2 = 65536 := by norm_num
  have hid' : id < 256 ^ 2 := e2.symm ▸ hid
  simp only [HelioTargetPoseCmd.to_bytes, pyIntToBytes, if_pos hid', Except.bind]
  unfold HelioTargetPoseCmd.from_bytes
  rw [List.append_assoc, List.append_assoc]
  have d2 : (leBytes 2 id ++ (leBytes 4 x ++ (leBytes 4 y ++ leBytes 4 z))).drop 2 =
      leBytes 4 x ++ (leBytes 4 y ++ leBytes 4 z) :=
    List.drop_left' (leBytes_length 2 id)
  have d6 : (leBytes 2 id ++ (leBytes 4 x ++ (leBytes 4 y ++ leBytes 4 z))).drop 6 =
      leBytes 4 y ++ leBytes 4 z := by
    have step : ((leBytes 2 id ++ (leBytes 4 x ++ (leBytes 4 y ++ leBytes 4 z))).drop 2).drop 4 =
        (leBytes 2 id ++ (leBytes 4 x ++ (leBytes 4 y ++ leBytes 4 z))).drop 6 :=
      List.drop_drop 4 2 _
    rw [← step, d2, List.drop_left' (leBytes_length 4 x)]
  have d10 : (leBytes 2 id ++ (leBytes 4 x ++ (leBytes 4 y ++ leBytes 4 z))).drop 10 =
      leBytes 4 z := by
    have step : ((leBytes 2 id ++ (leBytes 4 x ++ (leBytes 4 y ++ leBytes 4 z))).drop 6).drop 4 =
        (leBytes 2 id ++ (leBytes 4 x ++ (leBytes 4 y ++ leBytes 4 z))).drop 10 :=
      List.drop_drop 4 6 _
    rw [← step, d6, List.drop_left' (leBytes_length 4 y)]
  have s0 : pySlice (leBytes 2 id ++ (leBytes 4 x ++ (leBytes 4 y ++ leBytes 4 z))) 0 2 =
      leBytes 2 id := by
    simp only [pySlice, List.drop_zero]
    exact List.take_left' (leBytes_length 2 id)
  have s2 : pySlice (leBytes 2 id ++ (leBytes 4 x ++ (leBytes 4 y ++ leBytes 4 z))) 2 4 =
      leBytes 4 x := by
    rw [pySlice, d2]
    exact List.take_left' (leBytes_length 4 x)
  have s6 : pySlice (leBytes 2 id ++ (leBytes 4 x ++ (leBytes 4 y ++ leBytes 4 z))) 6 4 =
      leBytes 4 y := by
    rw [pySlice, d6]
    exact List.take_left' (leBytes_length 4 y)
  have s10 : pySlice (leBytes 2 id ++ (leBytes 4 x ++ (leBytes 4 y ++ leBytes 4 z))) 10 4 =
      leBytes 4 z := by
    rw [pySlice, d10]
    exact List.take_of_length_le (by rw [leBytes_length])
  rw [s0, s2, s6, s10, pyIntFromBytesLE_leBytes 2 id hid', unpack_f_leBytes x hx,
    unpack_f_leBytes y hy, unpack_f_leBytes z hz]
  simp [Except.bind]

theorem HelioAngle_roundtrip (el ti : Nat) (hel : el < 4294967296)
    (hti : ti < 4294967296) :
    HelioAngle.from_bytes (HelioAngle.to_bytes ⟨el, ti⟩) = .ok ⟨el, ti⟩ := by
  have e4 : (256 : Nat) ^ 4 = 4294967296 := by norm_num
  have lenA : (HelioAngle.to_bytes ⟨el, ti⟩).length = 8 := by
    simp [HelioAngle.to_bytes, leBytes_length]
  have takeA : (HelioAngle.to_bytes ⟨el, ti⟩).take 8 = HelioAngle.to_bytes ⟨el, ti⟩ :=
    List.take_of_length_le (by rw [lenA])
  have allA : (HelioAngle.to_bytes ⟨el, ti⟩).all (fun b => b < 256) = true := by
    simp only [HelioAngle.to_bytes, List.all_append, leBytes_all_lt, Bool.and_self]
  rw [HelioAngle.from_bytes, takeA, pyBytes]
  rw [if_pos allA]
  simp only [Except.bind, lenA, if_pos]
  rw [HelioAngle.to_bytes]
  rw [List.take_left' (leBytes_length 4 el), List.drop_left' (leBytes_length 4 el)]
  rw [leDecode_leBytes 4 el (e4.symm ▸ hel), leDecode_leBytes 4 ti (e4.symm ▸ hti)]

theorem CalibObservation_roundtrip (t now u v id el ti : Nat)
    (hid : id < 65536) (hu : u < 4294967296) (hv : v < 4294967296)
    (hel : el < 4294967296) (hti : ti < 4294967296)
    (h : t / msPerDay = now / msPerDay ∧ t ≤ now ∨
      now / msPerDay = t / msPerDay + 1 ∧ now < t + msPerDay) :
    (CalibObservation.to_bytes ⟨(t : Int), u, v, id, ⟨el, ti⟩⟩).bind
      (CalibObservation.from_bytes now) = .ok ⟨(t : Int), u, v, id, ⟨el, ti⟩⟩ := by
  have e2 : (256 : Nat) ^ 2 = 65536 := by norm_num
  have hid' : id < 256 ^ 2 := e2.symm ▸ hid
  simp only [CalibObservation.to_bytes, pyIntToBytes, if_pos hid', Except.bind]
  unfold CalibObservation.from_bytes
  rw [List.append_assoc, List.append_assoc, List.append_assoc]
  have d4 : (time_to_bytes (t : Int) ++ (leBytes 4 u ++ (leBytes 4 v ++
      (leBytes 2 id ++ HelioAngle.to_bytes ⟨el, ti⟩)))).drop 4 =
      leBytes 4 u ++ (leBytes 4 v ++ (leBytes 2 id ++ HelioAngle.to_bytes ⟨el, ti⟩)) :=
    List.drop_left' (time_to_bytes_length _)
  have d8 : (time_to_bytes (t : Int) ++ (leBytes 4 u ++ (leBytes 4 v ++
      (leBytes 2 id ++ HelioAngle.to_bytes ⟨el, ti⟩)))).drop 8 =
      leBytes 4 v ++ (leBytes 2 id ++ HelioAngle.to_bytes ⟨el, ti⟩) := by
    have step : ((time_to_bytes (t : Int) ++ (leBytes 4 u ++ (leBytes 4 v ++
        (leBytes 2 id ++ HelioAngle.to_bytes ⟨el, ti⟩)))).drop 4).drop 4 =
        (time_to_bytes (t : Int) ++ (leBytes 4 u ++ (leBytes 4 v ++
        (leBytes 2 id ++ HelioAngle.to_bytes ⟨el, ti⟩)))).drop 8 :=
      List.drop_drop 4 4 _
    rw [← step, d4, List.drop_left' (leBytes_length 4 u)]
  have d12 : (time_to_bytes (t : Int) ++ (leBytes 4 u ++ (leBytes 4 v ++
      (leBytes 2 id ++ HelioAngle.to_bytes ⟨el, ti⟩)))).drop 12 =
      leBytes 2 id ++ HelioAngle.to_bytes ⟨el, ti⟩ := by
    have step : ((time_to_bytes (t : Int) ++ (leBytes 4 u ++ (leBytes 4 v ++
        (leBytes 2 id ++ HelioAngle.to_bytes ⟨el, ti⟩)))).drop 8).drop 4 =
        (time_to_bytes (t : Int) ++ (leBytes 4 u ++ (leBytes 4 v ++
        (leBytes 2 id ++ HelioAngle.to_bytes ⟨el, ti⟩)))).drop 12 :=
      List.drop_drop 4 8 _
    rw [← step, d8, List.drop_left' (leBytes_length 4 v)]
  have d14 : (time_to_bytes (t : Int) ++ (leBytes 4 u ++ (leBytes 4 v ++
      (leBytes 2 id ++ HelioAngle.to_bytes ⟨el, ti⟩)))).drop 14 =
      HelioAngle.to_bytes ⟨el, ti⟩ := by
    have step : ((time_to_bytes (t : Int) ++ (leBytes 4 u ++ (leBytes 4 v ++
        (leBytes 2 id ++ HelioAngle.to_bytes ⟨el, ti⟩)))).drop 12).drop 2 =
        (time_to_bytes (t : Int) ++ (leBytes 4 u ++ (leBytes 4 v ++
        (leBytes 2 id ++ HelioAngle.to_bytes ⟨el, ti⟩)))).drop 14 :=
      List.drop_drop 2 12 _
    rw [← step, d12, List.drop_left' (leBytes_length 2 id)]
  have s0 : pySlice (time_to_bytes (t : Int) ++ (leBytes 4 u ++ (leBytes 4 v ++
      (leBytes 2 id ++ HelioAngle.to_bytes ⟨el, ti⟩)))) 0 4 = time_to_bytes (t : Int) := by
    simp only [pySlice, List.drop_zero]
    exact List.take_left' (time_to_bytes_length _)
  have s4 : pySlice (time_to_bytes (t : Int) ++ (leBytes 4 u ++ (leBytes 4 v ++
      (leBytes 2 id ++ HelioAngle.to_bytes ⟨el, ti⟩)))) 4 4 = leBytes 4 u := by
    rw [pySlice, d4]
    exact List.take_left' (leBytes_length 4 u)
  have s8 : pySlice (time_to_bytes (t : Int) ++ (leBytes 4 u ++ (leBytes 4 v ++
      (leBytes 2 id ++ HelioAngle.to_bytes ⟨el, ti⟩)))) 8 4 = leBytes 4 v := by
    rw [pySlice, d8]
    exact List.take_left' (leBytes_length 4 v)
  have s12 : pySlice (time_to_bytes (t : Int) ++ (leBytes 4 u ++ (leBytes 4 v ++
      (leBytes 2 id ++ HelioAngle.to_bytes ⟨el, ti⟩)))) 12 2 = leBytes 2 id := by
    rw [pySlice, d12]
    exact List.take_left' (leBytes_length 2 id)
  have s14 : pySlice (time_to_bytes (t : Int) ++ (leBytes 4 u ++ (leBytes 4 v ++
      (leBytes 2 id ++ HelioAngle.to_bytes ⟨el, ti⟩)))) 14 8 =
      HelioAngle.to_bytes ⟨el, ti⟩ := by
    rw [pySlice, d14]
    exact List.take_of_length_le (by simp [HelioAngle.to_bytes, leBytes_length])
  rw [s0, s4, s8, s12, s14, bytes_to_time_time_to_bytes t now h,
    unpack_f_leBytes u hu, unpack_f_leBytes v hv, pyIntFromBytesLE_leBytes 2 id hid',
    HelioAngle_roundtrip el ti hel hti]
  simp [Except.bind]

theorem deserialize_cons (now opcode len : Nat) (rest : List Nat)
    (hop : opcode < 256) (hlen : len < 256) :
    deserialize now (opcode :: len :: rest) =
      if (rest.take len).isEmpty then .error .valueError
      else if opcode = 0 then
        (HelioCmd.from_bytes (rest.take len)).map Msg.helioCmd
      else if opcode = 3 then .error .attributeError
      else if opcode = 4 then
        (CalibObservation.from_bytes now (rest.take len)).map Msg.calibObservation
      else if opcode = 5 then
        (HelioTargetPoseCmd.from_bytes (rest.take len)).map Msg.helioTargetPoseCmd
      else if opcode = 6 then
        (HeartBeat.from_bytes (rest.take len)).map Msg.heartBeat
      else .error .valueError := by
  have t1 : (opcode :: len :: rest).take 2 = [opcode, len] := rfl
  have g : (((opcode :: len :: rest).take 2).all fun b => b < 256) = true := by
    rw [t1]
    simp [hop, hlen]
  simp only [deserialize, g, if_true]

theorem HelioAngle_from_bytes_short {l : List Nat} (h : l.length < 8) :
    isFailure (HelioAngle.from_bytes l) = true := by
  simp only [HelioAngle.from_bytes, pyBytes]
  split
  · simp only [Except.bind]
    rw [if_neg (by simp only [List.length_take]; omega)]
    rfl
  · rfl

/-! ### Claim theorems -/

/-- C1 counterexample: the decode-encode round trip is not the identity for
`CalibObservation`, even with every field in range.  The observation taken at
the epoch instant (timestamp 0, a valid millisecond-precision timestamp)
encodes to a 22-byte payload, but decoding that payload when the decoder's
clock reads two days after the epoch returns the timestamp two days after the
epoch, not the original one: `to_bytes` keeps only the time of day and
`from_bytes` reattaches the decoder's own date. -/
theorem C1_counterexample :
    CalibObservation.to_bytes ⟨(0 : Int), 0, 0, 1, ⟨0, 0⟩⟩ =
      .ok [0, 0, 0, 0, 0, 0, 0, 0, 0, 0, 0, 0, 1, 0, 0, 0, 0, 0, 0, 0, 0, 0] ∧
    CalibObservation.from_bytes 172800000
        [0, 0, 0, 0, 0, 0, 0, 0, 0, 0, 0, 0, 1, 0, 0, 0, 0, 0, 0, 0, 0, 0] =
      .ok ⟨(172800000 : Int), 0, 0, 1, ⟨0, 0⟩⟩ ∧
    CalibObservation.from_bytes 172800000
        [0, 0, 0, 0, 0, 0, 0, 0, 0, 0, 0, 0, 1, 0, 0, 0, 0, 0, 0, 0, 0, 0] ≠
      .ok ⟨(0 : Int), 0, 0, 1, ⟨0, 0⟩⟩ := by
  refine ⟨by decide, by decide, by decide⟩

/-- C1 (amended): `from_bytes` is the exact left inverse of `to_bytes` for
HeartBeat (timestamp below 2^64 ms), HelioCmd (id below 2^16) and
HelioTargetPoseCmd (id below 2^16, float bit patterns below 2^32).  For
CalibObservation the fields round-trip, but the timestamp's date is rebuilt
from the decoder's clock `now`, so the full value round-trips only when the
message is decoded within a day: either on the same calendar day at or after
the timestamp, or on the following day less than 24 hours later. -/
theorem C1_roundtrip_amended :
    (∀ ms : Nat, ms < 18446744073709551616 →
      (HeartBeat.to_bytes ⟨ms⟩).bind HeartBeat.from_bytes = .ok ⟨ms⟩) ∧
    (∀ (id : Nat) (a : Action), id < 65536 →
      HelioCmd.from_bytes (HelioCmd.to_bytes ⟨id, a⟩) = .ok ⟨id, a⟩) ∧
    (∀ id x y z : Nat, id < 65536 → x < 4294967296 → y < 4294967296 →
      z < 4294967296 →
      (HelioTargetPoseCmd.to_bytes ⟨id, x, y, z⟩).bind HelioTargetPoseCmd.from_bytes =
        .ok ⟨id, x, y, z⟩) ∧
    (∀ t now u v id el ti : Nat, id < 65536 → u < 4294967296 → v < 4294967296 →
      el < 4294967296 → ti < 4294967296 →
      (t / msPerDay = now / msPerDay ∧ t ≤ now ∨
        now / msPerDay = t / msPerDay + 1 ∧ now < t + msPerDay) →
      (CalibObservation.to_bytes ⟨(t : Int), u, v, id, ⟨el, ti⟩⟩).bind
        (CalibObservation.from_bytes now) = .ok ⟨(t : Int), u, v, id, ⟨el, ti⟩⟩) := by
  refine ⟨HeartBeat_roundtrip, ?_, HelioTargetPoseCmd_roundtrip, CalibObservation_roundtrip⟩
  intro id a hid
  rw [HelioCmd_from_to, Nat.mod_eq_of_lt hid]

/-- Witness for C1 (amended): the four round trips at concrete in-range
values, hypotheses discharged by computation. -/
theorem C1_roundtrip_amended_witness :
    (HeartBeat.to_bytes ⟨1000⟩).bind HeartBeat.from_bytes = .ok ⟨1000⟩ ∧
    HelioCmd.from_bytes (HelioCmd.to_bytes ⟨300, .STOW⟩) = .ok ⟨300, .STOW⟩ ∧
    (HelioTargetPoseCmd.to_bytes ⟨7, 1, 2, 3⟩).bind HelioTargetPoseCmd.from_bytes =
      .ok ⟨7, 1, 2, 3⟩ ∧
    (CalibObservation.to_bytes ⟨(5 : Int), 7, 9, 1, ⟨2, 3⟩⟩).bind
      (CalibObservation.from_bytes 10) = .ok ⟨(5 : Int), 7, 9, 1, ⟨2, 3⟩⟩ :=
  ⟨C1_roundtrip_amended.1 1000 (by decide),
   C1_roundtrip_amended.2.1 300 .STOW (by decide),
   C1_roundtrip_amended.2.2.1 7 1 2 3 (by decide) (by decide) (by decide) (by decide),
   C1_roundtrip_amended.2.2.2 5 10 7 9 1 2 3 (by decide) (by decide) (by decide)
     (by decide) (by decide) (Or.inl ⟨by decide, by decide⟩)⟩

/-- C2: `HelioCmd(helio_id=300, action=STOW)` encodes to exactly `[1, 44, 2]`
(300 split big-endian, high byte first) and its frame is `[0, 3, 1, 44, 2]`. -/
theorem C2_heliocmd_scenario :
    HelioCmd.to_bytes ⟨300, .STOW⟩ = [1, 44, 2] ∧
    serialize (.helioCmd ⟨300, .STOW⟩) = .ok [0, 3, 1, 44, 2] := by
  refine ⟨by decide, by decide⟩

/-- C8: `HeartBeat.to_bytes` emits exactly eight bytes holding the timestamp's
milliseconds since the epoch as an unsigned 64-bit little-endian integer
(`leDecode` recovers the value); epoch-millisecond 1000 encodes to
`[0xE8, 0x03, 0, 0, 0, 0, 0, 0]` and its frame starts with opcode 6 and
length 8. -/
theorem C8_heartbeat_encoding :
    (∀ ms : Nat, ms < 18446744073709551616 →
      HeartBeat.to_bytes ⟨ms⟩ = .ok (leBytes 8 ms) ∧
      (leBytes 8 ms).length = 8 ∧ leDecode (leBytes 8 ms) = ms) ∧
    HeartBeat.to_bytes ⟨1000⟩ = .ok [232, 3, 0, 0, 0, 0, 0, 0] ∧
    serialize (.heartBeat ⟨1000⟩) = .ok [6, 8, 232, 3, 0, 0, 0, 0, 0, 0] := by
  refine ⟨?_, by decide, by decide⟩
  intro ms h
  have e : (256 : Nat) ^ 8 = 18446744073709551616 := by norm_num
  have h' : ms < 256 ^ 8 := e.symm ▸ h
  refine ⟨?_, leBytes_length 8 ms, leDecode_leBytes 8 ms h'⟩
  simp only [HeartBeat.to_bytes, pyIntToBytes]
  rw [if_pos h']

/-- Witness for C8: the general part instantiated at epoch-millisecond 1000. -/
theorem C8_heartbeat_encoding_witness :
    HeartBeat.to_bytes ⟨1000⟩ = .ok (leBytes 8 1000) ∧
    (leBytes 8 1000).length = 8 ∧ leDecode (leBytes 8 1000) = 1000 :=
  C8_heartbeat_encoding.1 1000 (by decide)

/-- C9: for every id (also above 65535), `HelioCmd.to_bytes` masks the two
id bytes, so decoding its own encoding yields the id modulo 2^16: over-range
ids wrap silently instead of being rejected. -/
theorem C9_id_wraps (id : Nat) (a : Action) :
    HelioCmd.from_bytes (HelioCmd.to_bytes ⟨id, a⟩) = .ok ⟨id % 65536, a⟩ :=
  HelioCmd_from_to id a

set_option maxRecDepth 4000 in
/-- C3 counterexample: framing a 256-byte payload does not fail and is not
rejected: `serialize`'s framing step emits `[opcode, 256, ...payload]` with
the payload intact.  There is no length check and no `PayloadTooLarge`
failure anywhere in `serialize`. -/
theorem C3_counterexample :
    serializeCore 6 (List.replicate 256 7) = 6 :: 256 :: List.replicate 256 7 ∧
    (serializeCore 6 (List.replicate 256 7)).drop 2 = List.replicate 256 7 := by
  refine ⟨by decide, by decide⟩

/-- C3 (amended): `serialize` performs no payload-length check and can never
fail with a size error: for any payload it emits `[opcode, length, ...payload]`
unchanged (never truncating), and every registered message's encoded payload
is at most 22 bytes, so the 255-byte boundary is unreachable from the closed
message set. -/
theorem C3_serialize_no_length_check :
    (∀ (opcode : Nat) (msg_data : List Nat),
      serializeCore opcode msg_data = opcode :: msg_data.length :: msg_data) ∧
    (∀ (m : Msg) (d : List Nat), m.to_bytes = .ok d →
      serialize m = .ok (OPCODE_OF m :: d.length :: d) ∧ d.length ≤ 22) := by
  refine ⟨fun _ _ => rfl, ?_⟩
  intro m d h
  have hs : serialize m = .ok (OPCODE_OF m :: d.length :: d) := by
    simp only [serialize, h, Except.bind, serializeCore]
  refine ⟨hs, ?_⟩
  cases m with
  | helioCmd c =>
    simp only [Msg.to_bytes] at h
    injection h with h'
    subst h'
    simp [HelioCmd.to_bytes]
  | calibObservation c =>
    simp only [Msg.to_bytes, CalibObservation.to_bytes, pyIntToBytes] at h
    by_cases hid : c.helio_id < 256 ^ 2
    · rw [if_pos hid] at h
      simp only [Except.bind] at h
      injection h with h'
      subst h'
      simp [List.length_append, leBytes_length, time_to_bytes_length,
        HelioAngle.to_bytes]
    · rw [if_neg hid] at h
      simp only [Except.bind] at h
      exact Except.noConfusion h
  | helioTargetPoseCmd c =>
    simp only [Msg.to_bytes, HelioTargetPoseCmd.to_bytes, pyIntToBytes] at h
    by_cases hid : c.helio_id < 256 ^ 2
    · rw [if_pos hid] at h
      simp only [Except.bind] at h
      injection h with h'
      subst h'
      simp [List.length_append, leBytes_length]
    · rw [if_neg hid] at h
      simp only [Except.bind] at h
      exact Except.noConfusion h
  | heartBeat c =>
    simp only [Msg.to_bytes, HeartBeat.to_bytes, pyIntToBytes] at h
    by_cases hms : c.timestamp_ms < 256 ^ 8
    · rw [if_pos hms] at h
      injection h with h'
      subst h'
      simp [leBytes_length]
    · rw [if_neg hms] at h
      exact Except.noConfusion h

/-- Witness for C3 (amended): the framing of a concrete `HelioCmd` message. -/
theorem C3_serialize_no_length_check_witness :
    serialize (.helioCmd ⟨300, .STOW⟩) =
      .ok (OPCODE_OF (.helioCmd ⟨300, .STOW⟩) :: ([1, 44, 2] : List Nat).length :: [1, 44, 2]) ∧
    ([1, 44, 2] : List Nat).length ≤ 22 :=
  C3_serialize_no_length_check.2 (.helioCmd ⟨300, .STOW⟩) [1, 44, 2] (by decide)

/-- C4 counterexample: a frame whose total length (5) is below 2 plus its
declared length byte (5) is not rejected: `deserialize` silently clamps the
payload slice to the three available bytes and decodes them successfully as
`HelioCmd(300, STOW)`. -/
theorem C4_counterexample :
    List.length [0, 5, 1, 44, 2] < 2 + 5 ∧
    deserialize 0 [0, 5, 1, 44, 2] = .ok (.helioCmd ⟨300, .STOW⟩) := by
  refine ⟨by decide, by decide⟩

/-- C4 (amended): with fewer than 2 bytes `deserialize` fails (a header
unpack or byte-range error, not a named `TruncatedFrame`); but there is no
check of the total length against the declared length byte: the payload slice
is silently clamped to the bytes that are present, so a frame declaring
`len` with only `rest` available behaves exactly like the frame declaring
`rest.length`. -/
theorem C4_truncation_behaviour (now : Nat) (data : List Nat) :
    (data.length < 2 → isFailure (deserialize now data) = true) ∧
    (∀ opcode len rest, data = opcode :: len :: rest →
      opcode < 256 → len < 256 → rest.length ≤ len →
      deserialize now data = deserialize now (opcode :: rest.length :: rest)) := by
  constructor
  · intro hlen
    cases data with
    | nil => rfl
    | cons a tl =>
      cases tl with
      | nil =>
        unfold deserialize
        split
        · rfl
        · rfl
      | cons b tl2 =>
        exfalso
        simp only [List.length_cons] at hlen
        omega
  · intro opcode len rest hdata hop hlen hrest
    subst hdata
    have hrl : rest.length < 256 := Nat.lt_of_le_of_lt hrest hlen
    rw [deserialize_cons now opcode len rest hop hlen,
      deserialize_cons now opcode rest.length rest hop hrl,
      List.take_of_length_le hrest, List.take_length]

/-- Witness for C4 (amended): the empty frame fails, and the truncated frame
`[0, 5, 1, 44, 2]` behaves like the frame declaring length 3. -/
theorem C4_truncation_behaviour_witness :
    isFailure (deserialize 0 []) = true ∧
    deserialize 0 [0, 5, 1, 44, 2] = deserialize 0 [0, 3, 1, 44, 2] :=
  ⟨(C4_truncation_behaviour 0 []).1 (by decide),
   (C4_truncation_behaviour 0 [0, 5, 1, 44, 2]).2 0 5 [1, 44, 2] rfl
     (by decide) (by decide) (by decide)⟩

/-- C5: every byte slice strictly shorter than a variant's fixed wire size
(HeartBeat 8, HelioCmd 3, HelioTargetPoseCmd 14, CalibObservation 22) makes
that variant's `from_bytes` fail instead of producing a message from
out-of-range reads. -/
theorem C5_short_slices_fail (data : List Nat) (now : Nat) :
    (data.length < 8 → isFailure (HeartBeat.from_bytes data) = true) ∧
    (data.length < 3 → isFailure (HelioCmd.from_bytes data) = true) ∧
    (data.length < 14 → isFailure (HelioTargetPoseCmd.from_bytes data) = true) ∧
    (data.length < 22 → isFailure (CalibObservation.from_bytes now data) = true) := by
  refine ⟨?_, ?_, ?_, ?_⟩
  · intro hlen
    simp only [HeartBeat.from_bytes, pyBytes]
    split
    · simp only [Except.bind]
      rw [if_neg (by omega)]
      rfl
    · rfl
  · intro hlen
    cases data with
    | nil => rfl
    | cons a tl =>
      cases tl with
      | nil => rfl
      | cons b tl2 =>
        cases tl2 with
        | nil => rfl
        | cons c tl3 =>
          exfalso
          simp only [List.length_cons] at hlen
          omega
  · intro hlen
    simp only [HelioTargetPoseCmd.from_bytes]
    refine isFailure_bind_right _ fun id => ?_
    refine isFailure_bind_right _ fun x => ?_
    refine isFailure_bind_right _ fun y => ?_
    refine isFailure_bind_left _ (unpack_f_isFailure ?_)
    simp only [pySlice, List.length_take, List.length_drop]
    omega
  · intro hlen
    simp only [CalibObservation.from_bytes]
    refine isFailure_bind_right _ fun ts => ?_
    refine isFailure_bind_right _ fun u => ?_
    refine isFailure_bind_right _ fun v => ?_
    refine isFailure_bind_right _ fun id => ?_
    refine isFailure_bind_left _ (HelioAngle_from_bytes_short ?_)
    simp only [pySlice, List.length_take, List.length_drop]
    omega

/-- Witness for C5: the empty slice is rejected by all four decoders. -/
theorem C5_short_slices_fail_witness :
    isFailure (HeartBeat.from_bytes []) = true ∧
    isFailure (HelioCmd.from_bytes []) = true ∧
    isFailure (HelioTargetPoseCmd.from_bytes []) = true ∧
    isFailure (CalibObservation.from_bytes 0 []) = true :=
  ⟨(C5_short_slices_fail [] 0).1 (by decide),
   (C5_short_slices_fail [] 0).2.1 (by decide),
   (C5_short_slices_fail [] 0).2.2.1 (by decide),
   (C5_short_slices_fail [] 0).2.2.2 (by decide)⟩

/-- C6 counterexample: the empty payload yields zero packets, not the
claimed minimum of one. -/
theorem C6_counterexample :
    break_into_packets [] = [] ∧ (break_into_packets []).length ≠ 1 := by
  refine ⟨by decide, by decide⟩

/-- C6 (amended): `break_into_packets` returns exactly
`ceil(len(payload) / 13)` packets with no minimum: the empty payload yields
zero packets.  A 20-byte payload yields exactly two packets, the second
holding the remaining 7 data bytes followed by six zero-padding bytes. -/
theorem C6_packet_count :
    (∀ payload : List Nat,
      (break_into_packets payload).length = (payload.length + 12) / 13) ∧
    break_into_packets (List.range 20) =
      [[255, 1, 2, 0, 1, 2, 3, 4, 5, 6, 7, 8, 9, 10, 11, 12],
       [255, 2, 2, 13, 14, 15, 16, 17, 18, 19, 0, 0, 0, 0, 0, 0]] := by
  refine ⟨?_, by decide⟩
  intro payload
  simp only [break_into_packets, List.length_map, List.length_range]
  omega

/-- C7: every packet produced by `break_into_packets` is exactly 16 bytes;
its first three bytes are the address 255, the sequence number `i + 1`
(counting from one, so sequence numbers run 1..total with none missing) and
the shared packet total (the number of packets returned by the call). -/
theorem C7_packet_invariants (message : List Nat) (i : Nat)
    (h : i < (break_into_packets message).length) :
    ((break_into_packets message).get ⟨i, h⟩).length = 16 ∧
    ((break_into_packets message).get ⟨i, h⟩).take 3 =
      [255, i + 1, (break_into_packets message).length] := by
  have htake3 : ∀ (a b c : Nat) (l : List Nat), (a :: b :: c :: l).take 3 = [a, b, c] :=
    fun _ _ _ _ => rfl
  have hslice : (pySlice message (i * 13) 13).length ≤ 13 := by
    simp only [pySlice, List.length_take, List.length_drop]
    omega
  simp only [break_into_packets, List.get_eq_getElem, List.getElem_map,
    List.getElem_range, List.length_map, List.length_range]
  constructor
  · simp only [List.length_append, List.length_cons, List.length_replicate]
    omega
  · rw [List.cons_append, List.cons_append, List.cons_append, htake3]

/-- Witness for C7: the second packet of a 20-byte payload is 16 bytes long
and carries address 255, sequence number 2 and total 2. -/
theorem C7_packet_invariants_witness :
    ((break_into_packets (List.range 20)).get ⟨1, by decide⟩).length = 16 ∧
    ((break_into_packets (List.range 20)).get ⟨1, by decide⟩).take 3 =
      [255, 2, (break_into_packets (List.range 20)).length] :=
  C7_packet_invariants (List.range 20) 1 (by decide)

/-- C10: appending extra bytes after a well-formed frame (at least
`2 + length` bytes, byte-valued header, positive declared length, registered
opcode) never changes the result of `deserialize`: bytes past the declared
payload are ignored. -/
theorem C10_extra_bytes_ignored (now opcode len : Nat) (rest extra : List Nat)
    (hop : opcode < 256) (hlen : len < 256) (hpos : 0 < len)
    (hlong : len ≤ rest.length)
    (hreg : opcode = 0 ∨ opcode = 3 ∨ opcode = 4 ∨ opcode = 5 ∨ opcode = 6) :
    deserialize now ((opcode :: len :: rest) ++ extra) =
      deserialize now (opcode :: len :: rest) := by
  have hcons : (opcode :: len :: rest) ++ extra = opcode :: len :: (rest ++ extra) := rfl
  rw [hcons, deserialize_cons now opcode len (rest ++ extra) hop hlen,
    deserialize_cons now opcode len rest hop hlen,
    List.take_append_of_le_length hlong]

/-- Witness for C10: the HelioCmd frame `[0, 3, 1, 44, 2]` decodes the same
with a trailing garbage byte. -/
theorem C10_extra_bytes_ignored_witness :
    deserialize 0 ((0 :: 3 :: [1, 44, 2]) ++ [9]) = deserialize 0 (0 :: 3 :: [1, 44, 2]) :=
  C10_extra_bytes_ignored 0 0 3 [1, 44, 2] [9] (by decide) (by decide) (by decide)
    (by decide) (Or.inl rfl)

end HelioMessages
